import Mathlib

/-!
Verification development for the glasses voice-assistant repository
(source files src/index.ts and src/index_stable_backup.ts).

The repository's orchestration core is shallow-embedded below:
pure fragments become Lean functions, stateful fragments become explicit
state passing, remote calls (camera, Gemini text/vision inference, TTS)
become oracle parameters of type Except/sum so that both their success
and their rejection behaviour is represented, and JavaScript numbers that
only ever hold timestamps, lengths or counters become Nat.
-/

namespace Glasses

/-! ## Data model: ConversationEntry (interface ConversationEntry, index.ts lines 28-48)

JS numbers holding timestamps / durations are modelled as Nat.  The
latitude/longitude payload of the optional mock location is modelled with
Int; no code path examined here reads those numeric values, only the
shape of the record matters. -/

inductive ConvStatus where
  | processing
  | completed
  | error
deriving DecidableEq, Repr

structure PhotoBlob where
  requestId : String
  mimeType : String
  buffer : List Nat
deriving DecidableEq, Repr

structure LocationData where
  lat : Int
  lng : Int
  address : Option String
deriving DecidableEq, Repr

structure ConversationEntry where
  id : String
  timestamp : Nat
  userId : String
  question : String
  response : String
  hasPhoto : Bool
  photoData : Option PhotoBlob
  processingTime : Nat
  status : ConvStatus
  location : Option LocationData
  category : Option String
deriving DecidableEq, Repr

/-! ## Conversation record store (index.ts, addConversationEntry, lines 1177-1187)

`unshift` inserts at the head; `splice(50)` keeps only the first 50
elements when the length exceeds 50. -/

def addConversationEntry (entry : ConversationEntry)
    (userConversations : List ConversationEntry) : List ConversationEntry :=
  let l := entry :: userConversations
  if l.length > 50 then l.take 50 else l

/-- Appending a whole sequence of entries in order, starting from a given
history list (the map lookup `this.conversations.get(userId) || []`
starts at `[]` for a fresh user). -/
def appendAll (entries : List ConversationEntry)
    (start : List ConversationEntry) : List ConversationEntry :=
  entries.foldl (fun acc e => addConversationEntry e acc) start

/-! ## Dashboard projection (index.ts, setupWebviewRoutes, lines 185-234)

The `/api/conversations` handler maps each stored entry to an object
holding exactly the seven listed fields; the raw photo payload is only
reachable through `/api/photo/:conversationId`. -/

structure SanitizedConversation where
  id : String
  timestamp : Nat
  question : String
  response : String
  hasPhoto : Bool
  processingTime : Nat
  status : ConvStatus
deriving DecidableEq, Repr

def sanitizeConversation (conv : ConversationEntry) : SanitizedConversation :=
  { id := conv.id
    timestamp := conv.timestamp
    question := conv.question
    response := conv.response
    hasPhoto := conv.hasPhoto
    processingTime := conv.processingTime
    status := conv.status }

/-- The conversation list served by GET /api/conversations for one user. -/
def apiConversations (userConversations : List ConversationEntry) :
    List SanitizedConversation :=
  userConversations.map sanitizeConversation

/-- The photo endpoint GET /api/photo/:conversationId: looks the entry up
by id and serves the raw payload, or 404 (`none`) when the entry or its
photoData is absent. -/
def apiPhoto (userConversations : List ConversationEntry)
    (conversationId : String) : Option PhotoBlob :=
  match userConversations.find? (fun conv => conv.id = conversationId) with
  | none => none
  | some conv => conv.photoData

/-- Erasing the photo payload of an entry; two stores related by
`List.map stripPhotoData` agree on everything except photo buffers. -/
def stripPhotoData (conv : ConversationEntry) : ConversationEntry :=
  { conv with photoData := none }

/-! ## Safe photo capture (index.ts, stable variant, lines 2534-2579)

State per user: the active-photo-request flag and the last successful
capture time (`this.lastPhotoTime.get(userId) || 0`).  The camera call
`session.camera.requestPhoto()` either returns a photo or throws; both
outcomes are a parameter.  `now` is the time of the guard check and
`doneTime` the time at which a successful capture returns (the
`Date.now()` stored in `lastPhotoTime`).  Nat subtraction mirrors the JS
comparison `now - lastPhoto < 2000`: when `lastPhoto` exceeds `now` the
JS difference is negative, hence `< 2000`, and the truncated Nat
difference `0` is likewise `< 2000`. -/

structure PhotoData where
  mimeType : String
  buffer : List Nat
deriving DecidableEq, Repr

structure PhotoCaptureState where
  activePhotoRequest : Bool
  lastPhotoTime : Nat
deriving DecidableEq, Repr

inductive CameraResult where
  | ok (photo : PhotoData)
  | err
deriving DecidableEq, Repr

def safePhotoCapture (st : PhotoCaptureState) (now : Nat)
    (camera : CameraResult) (doneTime : Nat) :
    Option PhotoData × PhotoCaptureState :=
  if st.activePhotoRequest then
    (none, st)
  else if now - st.lastPhotoTime < 2000 then
    (none, st)
  else
    match camera with
    | .ok photo =>
        (some photo, { activePhotoRequest := false, lastPhotoTime := doneTime })
    | .err =>
        (none, { st with activePhotoRequest := false })

/-! ## Stop-word handling (index.ts, detectStopWord lines 1132-1143 and
handleTranscription lines 384-398)

`data.text.toLowerCase().trim()` is modelled by lowering every character
and trimming; `text.includes(word)` is list-infix containment of the
word's characters in the text's characters. -/

def jsLower (s : String) : String := ⟨s.data.map Char.toLower⟩

/-- JS String.prototype.trim: drops whitespace from both ends.  (Defined
over the string's character list; the core String.trim is definitionally
equivalent but is implemented by well-founded recursion over byte
positions, which blocks kernel evaluation.) -/
def jsTrim (s : String) : String :=
  ⟨((s.data.dropWhile Char.isWhitespace).reverse.dropWhile
      Char.isWhitespace).reverse⟩

/-- Character-list prefix test (needle, haystack). -/
def isPrefixCheck : List Char → List Char → Bool
  | [], _ => true
  | _ :: _, [] => false
  | c :: cs, d :: ds => c == d && isPrefixCheck cs ds

/-- Character-list containment scan: the needle is a prefix of some
suffix of the haystack. -/
def isInfixCheck (w : List Char) : List Char → Bool
  | [] => isPrefixCheck w []
  | c :: ts => isPrefixCheck w (c :: ts) || isInfixCheck w ts

def jsIncludes (text word : String) : Bool :=
  isInfixCheck word.toList text.toList

/-- The apostrophe character, used inside several stop words. -/
def apos : Char := Char.ofNat 39

/-- Splices an apostrophe between two string halves. -/
def q (a b : String) : String := a ++ String.singleton apos ++ b

def stopWords : List String :=
  [ "thanks mentra", "thank you mentra", q "that" "s all for now",
    q "that" "s all", q "that" "s it",
    q "that" "s enough", q "that" "s fine", q "that" "s good",
    q "that" "s perfect",
    "thanks", "thank you", "bye mentra", "goodbye mentra", "see you mentra",
    "done", "finished", "complete", "all done", q "we" "re done",
    q "i" "m done",
    "bye", "goodbye", "see you", "see ya", "later", "catch you later",
    q "that" "s all i need", q "that" "s everything", "nothing else",
    "no more",
    "stop", "end", "quit", "exit" ]

def detectStopWord (text : String) : Bool :=
  stopWords.any (fun word => jsIncludes text word)

/-- Outcome of the live-session priority branch of handleTranscription. -/
inductive LiveAction where
  | goodbyeAndClose
  | forwardToLive
  | fallThrough
deriving DecidableEq, Repr

/-- The PRIORITY 1 branch of handleTranscription (index.ts lines
384-398): with an active live session and a final transcription whose
lowercased trimmed text is non-empty, a detected stop word speaks a
goodbye and closes the live session; otherwise the text is forwarded to
the live model.  All other events fall through to the rest of the
handler. -/
def handleTranscriptionLive (liveActive : Bool) (text : String)
    (isFinal : Bool) : LiveAction :=
  let spokenText := jsTrim (jsLower text)
  if liveActive && isFinal && decide (spokenText.length > 0) then
    if detectStopWord spokenText then LiveAction.goodbyeAndClose
    else LiveAction.forwardToLive
  else LiveAction.fallThrough

/-! ## Parallel capture + inference orchestrator
(index.ts, stable variant: executeParallelOperations lines 2522-2529,
safeTextOnlyProcessing lines 2584-2632, processResults lines 2637-2670,
safeVisionProcessing lines 2675-2734)

Each Gemini service call either produces a text (`Except.ok`) or rejects
(`Except.error ()`), where rejection covers transport errors and the
lost `Promise.race` against the per-attempt timer — the code treats them
identically.  The calls made over one request are numbered, and an
oracle `Nat → RemoteOutcome` gives the outcome of the i-th call to each
service.  Each function also reports how many service calls it made, so
that call counts across fallback tiers can be stated. -/

abbrev RemoteOutcome := Except Unit String

/-- The acceptance guard applied to every Gemini response:
`if (text && text.trim().length > 0) return text; throw Empty`. -/
def usableText (r : RemoteOutcome) : Option String :=
  match r with
  | .ok t => if (jsTrim t).length > 0 then some t else none
  | .error _ => none

def textDefaultResponse : String :=
  "I'm ready to help! What would you like to know?"

def textLoopExitResponse : String :=
  "I'm here to help! Could you repeat your question?"

def finalFallbackResponse : String :=
  "I'm ready to help! Could you try asking your question again?"

/-- safeTextOnlyProcessing's retry loop, with `remaining` attempts left,
consuming oracle entries from index `i`.  Returns the response and the
number of service calls made.  The 0-fuel case is the line after the
loop (unreachable when started with 2 attempts, since the last attempt
always returns). -/
def safeTextOnlyGo (o : Nat → RemoteOutcome) (i : Nat) :
    Nat → String × Nat
  | 0 => (textLoopExitResponse, 0)
  | remaining + 1 =>
    match usableText (o i) with
    | some t => (t, 1)
    | none =>
      if remaining = 0 then (textDefaultResponse, 1)
      else
        let r := safeTextOnlyGo o (i + 1) remaining
        (r.1, r.2 + 1)

/-- safeTextOnlyProcessing: maxRetries = 2. -/
def safeTextOnlyProcessing (o : Nat → RemoteOutcome) (i : Nat) :
    String × Nat :=
  safeTextOnlyGo o i 2

/-- Length of Node's `buffer.toString('base64')` for an n-byte buffer:
4·⌈n/3⌉, padding included. -/
def base64Length (n : Nat) : Nat := 4 * ((n + 2) / 3)

/-- safeVisionProcessing's retry loop.  `vOracle` is the vision-call oracle
(consumed from index `i`), `tOracle` the text-call oracle (consumed from
index `j` by the fall-back invocations of safeTextOnlyProcessing).
Returns (response, vision service calls, text service calls). -/
def safeVisionGo (vOracle tOracle : Nat → RemoteOutcome) (photo : PhotoData)
    (i j : Nat) : Nat → String × Nat × Nat
  | 0 =>
    let r := safeTextOnlyProcessing tOracle j
    (r.1, 0, r.2)
  | remaining + 1 =>
    if base64Length photo.buffer.length > 1000000 then
      let r := safeTextOnlyProcessing tOracle j
      (r.1, 0, r.2)
    else
      match usableText (vOracle i) with
      | some t => (t, 1, 0)
      | none =>
        if remaining = 0 then
          let r := safeTextOnlyProcessing tOracle j
          (r.1, 1, r.2)
        else
          let r := safeVisionGo vOracle tOracle photo (i + 1) j remaining
          (r.1, r.2.1 + 1, r.2.2)

/-- safeVisionProcessing: maxRetries = 2. -/
def safeVisionProcessing (vOracle tOracle : Nat → RemoteOutcome) (photo : PhotoData)
    (j : Nat) : String × Nat × Nat :=
  safeVisionGo vOracle tOracle photo 0 j 2

/-- A settled promise as produced by Promise.allSettled. -/
inductive PSettled (α : Type) where
  | fulfilled (value : α)
  | rejected
deriving DecidableEq, Repr

/-- processRequest's view of the photo branch: safePhotoCapture resolves
with a photo on success and with null both when a guard skips the
capture and when the camera throws. -/
inductive CaptureOutcome where
  | success (photo : PhotoData)
  | failed
  | unavailable
deriving DecidableEq, Repr

def captureToOption : CaptureOutcome → Option PhotoData
  | .success p => some p
  | .failed => none
  | .unavailable => none

/-- processResults: prefer the vision tier when the photo promise
fulfilled with a non-null photo, otherwise use the already-settled
text-only result, otherwise the fixed final fallback.  The text oracle
is consumed from index `j` by the fall-back text calls inside
safeVisionProcessing.  Returns (response, vision calls, extra text
calls). -/
def processResults (photoResult : PSettled (Option PhotoData))
    (textOnlyResult : PSettled String) (vOracle tOracle : Nat → RemoteOutcome)
    (j : Nat) : String × Nat × Nat :=
  match photoResult with
  | .fulfilled (some photo) => safeVisionProcessing vOracle tOracle photo j
  | .fulfilled none =>
      match textOnlyResult with
      | .fulfilled t => (t, 0, 0)
      | .rejected => (finalFallbackResponse, 0, 0)
  | .rejected =>
      match textOnlyResult with
      | .fulfilled t => (t, 0, 0)
      | .rejected => (finalFallbackResponse, 0, 0)

/-- One full orchestrator round: Promise.allSettled of safePhotoCapture
and safeTextOnlyProcessing (neither promise ever rejects, so both settle
fulfilled), then processResults.  Returns
(response, total text service calls, total vision service calls). -/
def orchestrate (capture : CaptureOutcome) (vOracle tOracle : Nat → RemoteOutcome) :
    String × Nat × Nat :=
  let t := safeTextOnlyProcessing tOracle 0
  let r := processResults (.fulfilled (captureToOption capture))
    (.fulfilled t.1) vOracle tOracle t.2
  (r.1, t.2 + r.2.2, r.2.1)

/-! ## Silence-detection listening state machine
(index_stable_backup.ts: constants lines 123-125, wake branch lines
1211-1248, listening branch lines 1251-1315, resetListeningState lines
2532-2544)

One transcription event runs synchronously, so the whole handler body is
one atomic step on the per-user state.  The opaque session handle is
omitted from the state.  Prompts spoken through speakWithRetry and the
dispatch of a finished question are recorded as effects. -/

def SILENCE_TIMEOUT : Nat := 2500
def MAX_LISTENING_TIMEOUT : Nat := 45000
def VOICE_ACTIVITY_THRESHOLD : Nat := 3

structure ListeningState where
  isListening : Bool
  timestamp : Nat
  lastVoiceActivity : Nat
  silenceStartTime : Nat
  hasSpokenSinceWakeWord : Bool
deriving DecidableEq, Repr

inductive Prompt where
  | acknowledge
  | listeningTimeout
  | giveUp
deriving DecidableEq, Repr

inductive ListenEffect where
  | speak (p : Prompt)
  | dispatch (question : String)
deriving DecidableEq, Repr

/-- resetListeningState: replaces the map entry; `lastVoiceActivity`
gets `Date.now()` at reset time. -/
def resetListeningState (now : Nat) : ListeningState :=
  { isListening := false
    timestamp := 0
    lastVoiceActivity := now
    silenceStartTime := 0
    hasSpokenSinceWakeWord := false }

/-- The state installed when a wake word is detected in a final
transcription (lines 1218-1225). -/
def wakeListeningState (now : Nat) : ListeningState :=
  { isListening := true
    timestamp := now
    lastVoiceActivity := now
    silenceStartTime := 0
    hasSpokenSinceWakeWord := false }

/-- The mutation opening the no-voice-activity arm (lines 1293-1297):
when the user has spoken before and no silence clock is running, start
it at `now`. -/
def silenceClockStart (st : ListeningState) (now : Nat) : ListeningState :=
  if st.hasSpokenSinceWakeWord && decide (st.silenceStartTime = 0)
  then { st with silenceStartTime := now } else st

/-- The no-significant-voice-activity arm of the handler (lines
1291-1315): possibly start the silence clock, then test the silence
timeout against the updated clock (the source mutates the object before
reading `silenceStartTime > 0`); on timeout, reset and speak the give-up
prompt only when the captured state says the user never spoke. -/
def silenceBranch (st : ListeningState) (now : Nat) :
    ListeningState × List ListenEffect :=
  if (silenceClockStart st now).silenceStartTime > 0 then
    if now - (silenceClockStart st now).silenceStartTime ≥ SILENCE_TIMEOUT then
      if (silenceClockStart st now).hasSpokenSinceWakeWord then
        (resetListeningState now, [])
      else
        (resetListeningState now, [ListenEffect.speak Prompt.giveUp])
    else (silenceClockStart st now, [])
  else (silenceClockStart st now, [])

/-- The `if (listeningState?.isListening)` branch of the transcription
handler (lines 1251-1315), one event at a time.  `jsTrim (jsLower text)`
is the handler's `spokenText`; the give-up prompt condition reads the
handler's captured pre-reset object, exactly as in the source. -/
def handleListeningEvent (st : ListeningState) (now : Nat) (text : String)
    (isFinal : Bool) : ListeningState × List ListenEffect :=
  if st.isListening then
    if now - st.timestamp > MAX_LISTENING_TIMEOUT then
      (resetListeningState now, [ListenEffect.speak Prompt.listeningTimeout])
    else
      if (jsTrim (jsLower text)).length ≥ VOICE_ACTIVITY_THRESHOLD then
        if isFinal && decide ((jsTrim (jsLower text)).length > 0) then
          (resetListeningState now, [ListenEffect.dispatch (jsTrim (jsLower text))])
        else
          ({ st with lastVoiceActivity := now
                     hasSpokenSinceWakeWord := true
                     silenceStartTime := 0 }, [])
      else
        silenceBranch st now
  else (st, [])

/-- Running the listening branch over a sequence of timed transcription
events, accumulating effects. -/
def runListeningEvents (st : ListeningState) :
    List (Nat × String × Bool) → ListeningState × List ListenEffect
  | [] => (st, [])
  | (now, text, isFinal) :: evs =>
    let r := handleListeningEvent st now text isFinal
    let rest := runListeningEvents r.1 evs
    (rest.1, r.2 ++ rest.2)

/-! ## Cancellation-aware TTS (index.ts, speakWithTTS, lines 1021-1102;
the identically structured stable variant is speakResponseWithCancellation,
index_stable_backup.ts lines 2650-2732)

The retry loop's observable points are numbered: attempt k (0-based) has
its top-of-loop abort check at position 4k, its Promise.race settlement
at 4k+1, the post-race abort check at 4k+2 and the retry backoff at
4k+3.  `sig` is the position at (the await boundary before) which
another `speak` call for the same user invoked `controller.abort()`;
`none` means the signal never arrives during this run.  A check at
position p observes the abort iff the signal position is ≤ p.  The race
may settle with the speak result, with the per-attempt timer, or — only
once the signal has been delivered — with the abort listener's
rejection; which of the simultaneously running promises settles first is
free, so a race settling against the timer while the signal is already
pending is a legal schedule. -/

inductive RaceOutcome where
  | resOk
  | resErr
  | rejTimeout
  | rejCancel
deriving DecidableEq, Repr

def abortSeen (sig : Option Nat) (pos : Nat) : Bool :=
  match sig with
  | some s => decide (s ≤ pos)
  | none => false

/-- Schedules are well-formed when the abort-listener promise only wins
a race after the signal has actually been delivered. -/
def RacesWF (sig : Option Nat) (races : Nat → RaceOutcome) : Prop :=
  ∀ k, races k = RaceOutcome.rejCancel → abortSeen sig (4 * k + 1) = true

inductive TTSResult where
  | success
  | cancelled
  | fallbackShown
  | loopExit
deriving DecidableEq, Repr

structure TTSRun where
  result : TTSResult
  speakCallsStarted : Nat
  fallback : Bool
deriving DecidableEq, Repr

/-- speakWithTTS's retry loop from attempt `k` with `fuel` attempts
left.  The 0-fuel case is the implicit return after the loop
(unreachable from a 2-attempt start, since the last attempt always
returns).  Each reached race starts one `session.audio.speak` call. -/
def speakWithTTSGo (sig : Option Nat) (races : Nat → RaceOutcome) :
    Nat → Nat → TTSRun
  | _, 0 => { result := .loopExit, speakCallsStarted := 0, fallback := false }
  | k, fuel + 1 =>
    if abortSeen sig (4 * k) then
      { result := .cancelled, speakCallsStarted := 0, fallback := false }
    else
      match races k with
      | .rejCancel =>
          { result := .cancelled, speakCallsStarted := 1, fallback := false }
      | .resOk =>
          if abortSeen sig (4 * k + 2) then
            { result := .cancelled, speakCallsStarted := 1, fallback := false }
          else
            { result := .success, speakCallsStarted := 1, fallback := false }
      | .resErr =>
          if abortSeen sig (4 * k + 2) then
            { result := .cancelled, speakCallsStarted := 1, fallback := false }
          else if fuel = 0 then
            { result := .fallbackShown, speakCallsStarted := 1, fallback := true }
          else
            let r := speakWithTTSGo sig races (k + 1) fuel
            { result := r.result, speakCallsStarted := r.speakCallsStarted + 1,
              fallback := r.fallback }
      | .rejTimeout =>
          if fuel = 0 then
            { result := .fallbackShown, speakCallsStarted := 1, fallback := true }
          else
            let r := speakWithTTSGo sig races (k + 1) fuel
            { result := r.result, speakCallsStarted := r.speakCallsStarted + 1,
              fallback := r.fallback }

/-- speakWithTTS: maxRetries = 2. -/
def speakWithTTS (sig : Option Nat) (races : Nat → RaceOutcome) : TTSRun :=
  speakWithTTSGo sig races 0 2

/-! ## Request queue and scheduler (index.ts, stable variant:
processRequest lines 2410-2418, processQueueAsync lines 2423-2517)

The event-loop interleaving is modelled by a step relation on the
scheduler state.  Synchronous prefixes between awaits are single atomic
actions:

* `enqueue r` — processRequest: push, then, when the busy flag is clear,
  run processQueueAsync's synchronous prefix (guard, set busy, shift the
  head into processing);
* `finish` — the current request's body completes (success or error) and
  its `finally` block runs: clear the busy flag, record the completion,
  and when the queue is still non-empty schedule a `setImmediate`
  wake-up;
* `wakeup` — one scheduled setImmediate callback fires and runs
  processQueueAsync from the top (its guard makes spurious invocations
  harmless).

An `enqueue` action is defined on every state — the caller pushes and at
most starts the synchronous loop prefix; it never waits for processing. -/

structure QueuedRequest where
  question : String
  userId : String
  timestamp : Nat
deriving DecidableEq, Repr

structure QueueState where
  requestQueue : List QueuedRequest
  isProcessingRequest : Bool
  currentRequest : Option QueuedRequest
  completed : List QueuedRequest
  pendingWakeups : Nat
deriving DecidableEq, Repr

def initQueueState : QueueState :=
  { requestQueue := []
    isProcessingRequest := false
    currentRequest := none
    completed := []
    pendingWakeups := 0 }

/-- processQueueAsync's synchronous prefix: the guard
`if (queue.length === 0 || isProcessingRequest) return`, then
`isProcessingRequest = true` and `queue.shift()`. -/
def startQueueLoop (s : QueueState) : QueueState :=
  if s.requestQueue.isEmpty || s.isProcessingRequest then s
  else
    { s with requestQueue := s.requestQueue.tail
             isProcessingRequest := true
             currentRequest := s.requestQueue.head? }

/-- processRequest: push onto the FIFO; when nothing is processing,
invoke processQueueAsync (whose synchronous prefix runs immediately).
Pushing does not touch the busy flag, so the source's check of
`isProcessingRequest` after the push is written here as the branch
condition. -/
def processRequest (r : QueuedRequest) (s : QueueState) : QueueState :=
  if s.isProcessingRequest then
    { s with requestQueue := s.requestQueue ++ [r] }
  else
    startQueueLoop { s with requestQueue := s.requestQueue ++ [r] }

/-- The finally block at the end of processQueueAsync: clear the busy
flag, record the completion, and schedule a setImmediate wake-up when
the queue — untouched by the finally block itself — is non-empty. -/
def finishCurrent (s : QueueState) : QueueState :=
  match s.currentRequest with
  | none => s
  | some r =>
    if s.requestQueue.length > 0 then
      { s with currentRequest := none
               completed := s.completed ++ [r]
               isProcessingRequest := false
               pendingWakeups := s.pendingWakeups + 1 }
    else
      { s with currentRequest := none
               completed := s.completed ++ [r]
               isProcessingRequest := false }

/-- One scheduled setImmediate callback firing. -/
def runWakeup (s : QueueState) : QueueState :=
  if s.pendingWakeups > 0 then
    startQueueLoop { s with pendingWakeups := s.pendingWakeups - 1 }
  else s

inductive QueueAction where
  | enqueue (r : QueuedRequest)
  | finish
  | wakeup
deriving DecidableEq, Repr

def queueStep (s : QueueState) : QueueAction → QueueState
  | .enqueue r => processRequest r s
  | .finish => finishCurrent s
  | .wakeup => runWakeup s

def queueRun (acts : List QueueAction) : QueueState :=
  acts.foldl queueStep initQueueState

/-- The requests passed to processRequest along a trace, in order. -/
def enqueuedOf (acts : List QueueAction) : List QueuedRequest :=
  acts.filterMap (fun a => match a with
    | QueueAction.enqueue r => some r
    | _ => none)

/-! ## Concrete scenario data used by witnesses and counterexamples -/

/-- A small photo: 0 bytes, so its base64 encoding is far below the 1MB
ceiling. -/
def smallPhoto : PhotoData := { mimeType := "image/jpeg", buffer := [] }

/-- Text-inference oracle whose first call answers "Answer A." and whose
later calls answer "Answer B.": distinct answers expose which invocation
produced the final response. -/
def twoAnswerTextOracle : Nat → RemoteOutcome :=
  fun i => if i = 0 then Except.ok "Answer A." else Except.ok "Answer B."

/-- Vision-inference oracle that rejects every attempt. -/
def allFailVisionOracle : Nat → RemoteOutcome := fun _ => Except.error ()

/-- TTS schedule: attempt 1's race settles with a failed result, attempt
2's race settles against the per-attempt timer.  Together with a signal
position of 5 this is the schedule in which the abort signal is
delivered while attempt 2's race is pending but the timer settles the
race first. -/
def timeoutRaces : Nat → RaceOutcome :=
  fun k => if k = 0 then RaceOutcome.resErr else RaceOutcome.rejTimeout

/-- A queue trace: two requests enqueued back-to-back, the first's body
completes, the scheduled setImmediate callback fires, the second's body
completes. -/
def demoRequest1 : QueuedRequest := { question := "q1", userId := "u", timestamp := 0 }

def demoRequest2 : QueuedRequest := { question := "q2", userId := "u", timestamp := 1 }

def demoTrace : List QueueAction :=
  [QueueAction.enqueue demoRequest1, QueueAction.enqueue demoRequest2,
   QueueAction.finish, QueueAction.wakeup, QueueAction.finish]

/-- A conversation entry holding a raw photo payload. -/
def demoBlob : PhotoBlob :=
  { requestId := "conv_1", mimeType := "image/jpeg", buffer := [1, 2, 3] }

def demoEntryWithPhoto : ConversationEntry :=
  { id := "conv_1", timestamp := 10, userId := "u",
    question := "what do you see", response := "a desk",
    hasPhoto := true, photoData := some demoBlob, processingTime := 5,
    status := ConvStatus.completed, location := none, category := none }

/-- The same entry with the photo bytes dropped. -/
def demoEntryNoPhoto : ConversationEntry :=
  { demoEntryWithPhoto with photoData := none }

/-- The scheduler invariant: the busy flag is set exactly while a request
is dequeued-but-unfinished, and the requests enqueued so far are
partitioned, in order, into completed ones, the in-flight one, and the
still-queued ones. -/
def QueueInv (s : QueueState) (enq : List QueuedRequest) : Prop :=
  s.isProcessingRequest = s.currentRequest.isSome ∧
  enq = s.completed ++ s.currentRequest.toList ++ s.requestQueue

/-- The listening-state invariant along any run: a running silence clock
implies the user has spoken since the wake word. -/
def ListeningInv (st : ListeningState) : Prop :=
  st.silenceStartTime ≠ 0 → st.hasSpokenSinceWakeWord = true

/-! # Theorems -/

/-! ### Helper lemmas -/

theorem take_append_take (a b : List ConversationEntry) (n : Nat) :
    (a ++ b.take n).take n = (a ++ b).take n := by
  rw [List.take_append_eq_append_take, List.take_append_eq_append_take,
    List.take_take, Nat.min_eq_left (Nat.sub_le n a.length)]

theorem addConversationEntry_eq_take (e : ConversationEntry)
    (l : List ConversationEntry) :
    addConversationEntry e l = (e :: l).take 50 := by
  unfold addConversationEntry
  by_cases h50 : (e :: l).length > 50
  · simp [h50]
  · simp only [h50, if_false]
    exact (List.take_of_length_le (Nat.le_of_not_lt h50)).symm

theorem addConversationEntry_length (e : ConversationEntry)
    (l : List ConversationEntry) :
    (addConversationEntry e l).length ≤ 50 := by
  rw [addConversationEntry_eq_take e l]
  simp

theorem appendAll_eq_take (entries : List ConversationEntry) :
    ∀ l, l.length ≤ 50 →
      appendAll entries l = (entries.reverse ++ l).take 50 := by
  induction entries with
  | nil =>
      intro l hl
      simp [appendAll, List.take_of_length_le hl]
  | cons e es ih =>
      intro l _
      have step : appendAll (e :: es) l = appendAll es (addConversationEntry e l) := rfl
      rw [step, ih _ (addConversationEntry_length e l),
        addConversationEntry_eq_take e l]
      rw [take_append_take]
      simp

/-! ### Claim C6: bounded, most-recent-first conversation history -/

/-- Claim C6: for every user and every sequence of appends to that
user's conversation history, each new entry is inserted at the head
(most-recent-first) and the list never holds more than 50 entries:
appending beyond the cap leaves exactly the 50 most recent entries,
oldest evicted first. -/
theorem history_capped_most_recent_first (entries : List ConversationEntry) :
    appendAll entries [] = entries.reverse.take 50 ∧
    (appendAll entries []).length = min entries.length 50 ∧
    (∀ e l, (addConversationEntry e l).head? = some e) := by
  have hmain : appendAll entries [] = entries.reverse.take 50 := by
    rw [appendAll_eq_take entries [] (by simp)]
    simp
  refine ⟨hmain, ?_, ?_⟩
  · rw [hmain]
    simp [Nat.min_comm]
  · intro e l
    rw [addConversationEntry_eq_take e l]
    rfl

/-! ### Claim C8: the dashboard snapshot is a photo-free projection -/

/-- Claim C8: the /api/conversations response contains per entry only
the fields id, timestamp, question, response, hasPhoto, processingTime
and status — never the raw photo payload — so two conversation stores
that differ only in the photoData of their entries produce identical
snapshot responses. -/
theorem dashboard_snapshot_photo_noninterference
    (l1 l2 : List ConversationEntry)
    (h : l1.map stripPhotoData = l2.map stripPhotoData) :
    apiConversations l1 = apiConversations l2 ∧
    (∀ conv, sanitizeConversation (stripPhotoData conv) =
      sanitizeConversation conv) := by
  have hcomp : ∀ l : List ConversationEntry,
      (l.map stripPhotoData).map sanitizeConversation =
        l.map sanitizeConversation := by
    intro l
    rw [List.map_map]
    rfl
  refine ⟨?_, fun conv => rfl⟩
  have h2 := congrArg (List.map sanitizeConversation) h
  rw [hcomp, hcomp] at h2
  exact h2

/-- Witness for C8: a store whose single entry carries photo bytes and
the same store with the bytes dropped yield the same snapshot. -/
theorem dashboard_snapshot_witness :
    apiConversations [demoEntryWithPhoto] = apiConversations [demoEntryNoPhoto] :=
  (dashboard_snapshot_photo_noninterference [demoEntryWithPhoto]
    [demoEntryNoPhoto] (by decide)).1

/-! ### Claim C9: safePhotoCapture is total and always releases its flag -/

/-- Claim C9: safePhotoCapture returns either photo data or null and
never throws — guard rejections (request already in flight, or less than
2000 ms since the last capture) and camera errors all yield null — and
every call that passed the guards ends with the user's
active-photo-request flag reset to false, so a failed capture cannot
permanently block later captures. -/
theorem safePhotoCapture_total_and_resets (st : PhotoCaptureState)
    (now : Nat) (camera : CameraResult) (doneTime : Nat) :
    (st.activePhotoRequest = true →
      safePhotoCapture st now camera doneTime = (none, st)) ∧
    (st.activePhotoRequest = false → now - st.lastPhotoTime < 2000 →
      safePhotoCapture st now camera doneTime = (none, st)) ∧
    (st.activePhotoRequest = false → ¬ now - st.lastPhotoTime < 2000 →
      (safePhotoCapture st now camera doneTime).2.activePhotoRequest = false ∧
      ((safePhotoCapture st now camera doneTime).1 = none ↔
        camera = CameraResult.err)) := by
  refine ⟨?_, ?_, ?_⟩
  · intro hactive
    simp [safePhotoCapture, hactive]
  · intro hactive hsoon
    simp [safePhotoCapture, hactive, hsoon]
  · intro hactive hsoon
    cases camera with
    | ok photo => simp [safePhotoCapture, hactive, hsoon]
    | err => simp [safePhotoCapture, hactive, hsoon]

/-- Witness for C9: with the guards passing and a failing camera, the
call returns null and leaves the flag cleared. -/
theorem safePhotoCapture_witness :
    (safePhotoCapture { activePhotoRequest := false, lastPhotoTime := 0 }
      5000 CameraResult.err 5100).2.activePhotoRequest = false ∧
    ((safePhotoCapture { activePhotoRequest := false, lastPhotoTime := 0 }
      5000 CameraResult.err 5100).1 = none ↔
      CameraResult.err = CameraResult.err) :=
  (safePhotoCapture_total_and_resets
    { activePhotoRequest := false, lastPhotoTime := 0 }
    5000 CameraResult.err 5100).2.2 rfl (by decide)

/-! ### Claim C10: any utterance containing a stop-word substring closes
the live session -/

/-- Claim C10: while a live session is active, every final transcription
whose lowercased text contains any member of the stop-word list — which
includes the bare substrings "done", "stop", "thanks", "bye" and "end" —
makes the handler speak a goodbye and close the live session instead of
forwarding the text to the model. -/
theorem stopword_substring_closes_session (text : String)
    (h : ∃ w ∈ stopWords, jsIncludes (jsTrim (jsLower text)) w = true) :
    handleTranscriptionLive true text true = LiveAction.goodbyeAndClose ∧
    ("done" ∈ stopWords ∧ "stop" ∈ stopWords ∧ "thanks" ∈ stopWords ∧
      "bye" ∈ stopWords ∧ "end" ∈ stopWords) := by
  obtain ⟨w, hmem, hinc⟩ := h
  have hwne : ∀ v ∈ stopWords, v.toList ≠ [] := by decide
  have hlen : 0 < (jsTrim (jsLower text)).length := by
    have hne : (jsTrim (jsLower text)).toList ≠ [] := by
      intro hnil
      unfold jsIncludes at hinc
      rw [hnil] at hinc
      obtain ⟨c, cs, hw⟩ := List.exists_cons_of_ne_nil (hwne w hmem)
      rw [hw] at hinc
      simp [isInfixCheck, isPrefixCheck] at hinc
    exact List.length_pos.mpr hne
  have hstop : detectStopWord (jsTrim (jsLower text)) = true := by
    unfold detectStopWord
    exact List.any_eq_true.mpr ⟨w, hmem, hinc⟩
  constructor
  · unfold handleTranscriptionLive
    simp [hstop, hlen]
  · exact ⟨by decide, by decide, by decide, by decide, by decide⟩

/-- Witness for C10: the utterance "Send the email" contains the stop
word "end", so it closes the live session. -/
theorem stopword_substring_witness :
    handleTranscriptionLive true "Send the email" true =
      LiveAction.goodbyeAndClose :=
  (stopword_substring_closes_session "Send the email" (by decide)).1

/-! ### Claim C7: the max-listening-timeout check is evaluated first -/

/-- Claim C7: while listening, an incoming transcription event evaluates
the max-listening-timeout condition before the silence-timeout
condition, so whenever both are satisfied at once the max-timeout reset
(with its timeout prompt) is the branch taken. -/
theorem max_timeout_evaluated_first (st : ListeningState) (now : Nat)
    (text : String) (isFinal : Bool)
    (hlisten : st.isListening = true)
    (hmax : now - st.timestamp > MAX_LISTENING_TIMEOUT)
    (_hsilence : st.silenceStartTime > 0)
    (_hsilence2 : now - st.silenceStartTime ≥ SILENCE_TIMEOUT)
    (_hquiet : (jsTrim (jsLower text)).length < VOICE_ACTIVITY_THRESHOLD) :
    handleListeningEvent st now text isFinal =
      (resetListeningState now, [ListenEffect.speak Prompt.listeningTimeout]) := by
  unfold handleListeningEvent
  rw [if_pos hlisten, if_pos hmax]

/-- Witness for C7: at 50000 ms after the wake word, with a silence
clock that started at 100 ms and an empty event, both timeout conditions
hold and the max-timeout branch fires. -/
theorem max_timeout_evaluated_first_witness :
    handleListeningEvent
      { isListening := true, timestamp := 0, lastVoiceActivity := 0,
        silenceStartTime := 100, hasSpokenSinceWakeWord := true }
      50000 "" false =
      (resetListeningState 50000, [ListenEffect.speak Prompt.listeningTimeout]) :=
  max_timeout_evaluated_first
    { isListening := true, timestamp := 0, lastVoiceActivity := 0,
      silenceStartTime := 100, hasSpokenSinceWakeWord := true }
    50000 "" false rfl (by decide) (by decide) (by decide) (by decide)

/-! ### Claim C3: the zero-speech silence timeout and its give-up prompt -/

/-- Claim C3 fails on the code: after a wake word with zero subsequent
speech, the silence clock is never started (`silenceStartTime` is only
set when `hasSpokenSinceWakeWord` is already true), so an event arriving
3000 ms into pure silence — past the 2500 ms SILENCE_TIMEOUT — leaves
the state listening and emits no prompt, and the "didn't hear anything"
give-up prompt can never be emitted along any event sequence that starts
at a wake: the prompt's own guard additionally requires
`hasSpokenSinceWakeWord` to be false, which the clock guard has already
made true. -/
theorem resetListeningState_inv (now : Nat) :
    ListeningInv (resetListeningState now) := by
  intro h
  simp [resetListeningState] at h

theorem silenceClockStart_hasSpoken (st : ListeningState) (now : Nat) :
    (silenceClockStart st now).hasSpokenSinceWakeWord =
      st.hasSpokenSinceWakeWord := by
  unfold silenceClockStart
  split <;> rfl

theorem silenceClockStart_inv (st : ListeningState) (now : Nat)
    (hinv : ListeningInv st) : ListeningInv (silenceClockStart st now) := by
  unfold silenceClockStart
  split
  case isTrue h =>
    intro _
    revert h
    cases st.hasSpokenSinceWakeWord <;> simp
  case isFalse h => exact hinv

theorem silenceBranch_no_prompt (st : ListeningState) (now : Nat)
    (hinv : ListeningInv st) :
    (silenceBranch st now).2 = [] ∧ ListeningInv (silenceBranch st now).1 := by
  have hclock := silenceClockStart_inv st now hinv
  unfold silenceBranch
  by_cases hpos : (silenceClockStart st now).silenceStartTime > 0
  · rw [if_pos hpos]
    have hspoke : (silenceClockStart st now).hasSpokenSinceWakeWord = true :=
      hclock (Nat.pos_iff_ne_zero.mp hpos)
    by_cases hto :
        now - (silenceClockStart st now).silenceStartTime ≥ SILENCE_TIMEOUT
    · rw [if_pos hto, if_pos hspoke]
      exact ⟨rfl, resetListeningState_inv now⟩
    · rw [if_neg hto]
      exact ⟨rfl, hclock⟩
  · rw [if_neg hpos]
    exact ⟨rfl, hclock⟩

theorem listening_step_no_giveup (st : ListeningState) (now : Nat)
    (text : String) (isFinal : Bool) (hinv : ListeningInv st) :
    ListenEffect.speak Prompt.giveUp ∉
      (handleListeningEvent st now text isFinal).2 ∧
    ListeningInv (handleListeningEvent st now text isFinal).1 := by
  unfold handleListeningEvent
  by_cases hl : st.isListening = true
  · rw [if_pos hl]
    by_cases hmax : now - st.timestamp > MAX_LISTENING_TIMEOUT
    · rw [if_pos hmax]
      exact ⟨by simp, resetListeningState_inv now⟩
    · rw [if_neg hmax]
      by_cases hvoice :
          (jsTrim (jsLower text)).length ≥ VOICE_ACTIVITY_THRESHOLD
      · rw [if_pos hvoice]
        by_cases hfin :
            (isFinal && decide ((jsTrim (jsLower text)).length > 0)) = true
        · rw [if_pos hfin]
          exact ⟨by simp, resetListeningState_inv now⟩
        · rw [if_neg hfin]
          refine ⟨by simp, ?_⟩
          intro _
          rfl
      · rw [if_neg hvoice]
        have hs := silenceBranch_no_prompt st now hinv
        refine ⟨?_, hs.2⟩
        rw [hs.1]
        simp
  · rw [if_neg hl]
    exact ⟨by simp, hinv⟩

theorem runListening_no_giveup (evs : List (Nat × String × Bool)) :
    ∀ st, ListeningInv st →
      ListenEffect.speak Prompt.giveUp ∉ (runListeningEvents st evs).2 := by
  induction evs with
  | nil =>
      intro st _
      simp [runListeningEvents]
  | cons ev evs ih =>
      intro st hinv
      obtain ⟨now, text, isFinal⟩ := ev
      have hstep := listening_step_no_giveup st now text isFinal hinv
      simp only [runListeningEvents, List.mem_append]
      intro hmem
      rcases hmem with hmem | hmem
      · exact hstep.1 hmem
      · exact ih _ hstep.2 hmem

/-- Claim C3 fails on the code: after a wake word with zero subsequent
speech, the silence clock is never started (`silenceStartTime` is only
set when `hasSpokenSinceWakeWord` is already true), so an event arriving
3000 ms into pure silence — past the 2500 ms SILENCE_TIMEOUT — leaves
the state listening and emits no prompt; moreover the "didn't hear
anything" give-up prompt can never be emitted along any event sequence
that starts at a wake, because the prompt's own guard additionally
requires `hasSpokenSinceWakeWord` to be false, which the clock guard has
already made true. -/
theorem silence_giveup_unreachable :
    handleListeningEvent (wakeListeningState 0) 3000 "" false =
      (wakeListeningState 0, []) ∧
    ∀ t0 evs, ListenEffect.speak Prompt.giveUp ∉
      (runListeningEvents (wakeListeningState t0) evs).2 := by
  constructor
  · decide
  · intro t0 evs
    apply runListening_no_giveup
    intro hs
    simp [wakeListeningState] at hs

/-! ### Claim C2: the orchestrator always returns a non-empty string -/

theorem usableText_ne_empty (r : RemoteOutcome) (t : String)
    (h : usableText r = some t) : t ≠ "" := by
  cases r with
  | error e => simp [usableText] at h
  | ok s =>
      have h' : (if (jsTrim s).length > 0 then some s else none) = some t := h
      by_cases hlen : (jsTrim s).length > 0
      · rw [if_pos hlen] at h'
        injection h' with h'
        subst h'
        intro hemp
        rw [hemp] at hlen
        exact absurd hlen (by decide)
      · rw [if_neg hlen] at h'
        exact absurd h' (by simp)

theorem safeTextOnlyGo_ne_empty (o : Nat → RemoteOutcome) :
    ∀ fuel i, (safeTextOnlyGo o i fuel).1 ≠ "" := by
  intro fuel
  induction fuel with
  | zero =>
      intro i
      simp [safeTextOnlyGo, textLoopExitResponse]
  | succ n ih =>
      intro i
      unfold safeTextOnlyGo
      cases husable : usableText (o i) with
      | some t =>
          simp only [husable]
          exact usableText_ne_empty (o i) t husable
      | none =>
          simp only [husable]
          by_cases hn : n = 0
          · subst hn
            simp [textDefaultResponse]
          · simp only [hn, if_false]
            exact ih (i + 1)

theorem safeTextOnlyGo_calls_pos (o : Nat → RemoteOutcome) (i n : Nat) :
    1 ≤ (safeTextOnlyGo o i (n + 1)).2 := by
  unfold safeTextOnlyGo
  cases husable : usableText (o i) with
  | some t =>
      simp only [husable]
      omega
  | none =>
      simp only [husable]
      by_cases hn : n = 0
      · subst hn
        simp
      · simp only [hn, if_false]
        omega

theorem safeVisionGo_ne_empty (vOracle tOracle : Nat → RemoteOutcome)
    (photo : PhotoData) :
    ∀ fuel i j, (safeVisionGo vOracle tOracle photo i j fuel).1 ≠ "" := by
  intro fuel
  induction fuel with
  | zero =>
      intro i j
      simp only [safeVisionGo]
      exact safeTextOnlyGo_ne_empty tOracle 2 j
  | succ n ih =>
      intro i j
      unfold safeVisionGo
      by_cases hsize : base64Length photo.buffer.length > 1000000
      · rw [if_pos hsize]
        exact safeTextOnlyGo_ne_empty tOracle 2 j
      · rw [if_neg hsize]
        cases husable : usableText (vOracle i) with
        | some t =>
            simp only [husable]
            exact usableText_ne_empty (vOracle i) t husable
        | none =>
            simp only [husable]
            by_cases hn : n = 0
            · subst hn
              simp only [if_pos rfl]
              exact safeTextOnlyGo_ne_empty tOracle 2 j
            · simp only [hn, if_false]
              exact ih (i + 1) j

/-- Claim C2: for every combination of outcomes of photo capture
(success, failure or unavailable), text-only inference (success or
failure on every attempt) and vision inference (success or failure on
every attempt), the orchestrator's result processing returns a non-empty
string to its caller: every rejection is absorbed into a fallback tier
ending at a fixed default string, and the whole pipeline is a total
function of the oracles. -/
theorem orchestrator_never_empty (capture : CaptureOutcome)
    (vOracle tOracle : Nat → RemoteOutcome) :
    (orchestrate capture vOracle tOracle).1 ≠ "" := by
  cases capture with
  | success p =>
      simp only [orchestrate, processResults, captureToOption]
      exact safeVisionGo_ne_empty vOracle tOracle p 2 0
        (safeTextOnlyProcessing tOracle 0).2
  | failed =>
      simp only [orchestrate, processResults, captureToOption]
      exact safeTextOnlyGo_ne_empty tOracle 2 0
  | unavailable =>
      simp only [orchestrate, processResults, captureToOption]
      exact safeTextOnlyGo_ne_empty tOracle 2 0

/-! ### Claim C4: what happens when vision fails after photo success -/

/-- Counterexample to claim C4: with a successful capture of a small
photo, a first text call answering "Answer A." and later text calls
answering "Answer B.", and vision rejecting both attempts, the
orchestrator answers "Answer B." — the result of a fresh invocation of
the text-only routine — and makes 2 text-service calls in total, not the
1 call the claim allows; the already-computed step-1 result "Answer A."
is not reused. -/
theorem vision_fallback_counterexample :
    (orchestrate (CaptureOutcome.success smallPhoto) allFailVisionOracle
      twoAnswerTextOracle).1 = "Answer B." ∧
    (safeTextOnlyProcessing twoAnswerTextOracle 0).1 = "Answer A." ∧
    (orchestrate (CaptureOutcome.success smallPhoto) allFailVisionOracle
      twoAnswerTextOracle).2.1 = 2 ∧
    ("Answer B." : String) ≠ "Answer A." := by
  refine ⟨by decide, by decide, by decide, by decide⟩

/-- Claim C4 as amended: when photo capture succeeds but vision
inference fails on both attempts, or the base64-encoded image exceeds
the 1MB ceiling, the orchestrator falls back by invoking the text-only
processing routine afresh — at least one additional text-inference
service call, consuming the oracle after the step-1 calls — rather than
returning the step-1 text-only result. -/
theorem vision_fallback_fresh_text_call (photo : PhotoData)
    (vOracle tOracle : Nat → RemoteOutcome)
    (h : base64Length photo.buffer.length > 1000000 ∨
      (usableText (vOracle 0) = none ∧ usableText (vOracle 1) = none)) :
    (orchestrate (CaptureOutcome.success photo) vOracle tOracle).1 =
      (safeTextOnlyProcessing tOracle
        (safeTextOnlyProcessing tOracle 0).2).1 ∧
    (orchestrate (CaptureOutcome.success photo) vOracle tOracle).2.1 =
      (safeTextOnlyProcessing tOracle 0).2 +
      (safeTextOnlyProcessing tOracle
        (safeTextOnlyProcessing tOracle 0).2).2 ∧
    1 ≤ (safeTextOnlyProcessing tOracle
      (safeTextOnlyProcessing tOracle 0).2).2 := by
  have hfresh := safeTextOnlyGo_calls_pos tOracle
    (safeTextOnlyProcessing tOracle 0).2 1
  have key : ∀ j, safeVisionGo vOracle tOracle photo 0 j 2 =
      ((safeTextOnlyProcessing tOracle j).1,
        (if base64Length photo.buffer.length > 1000000 then 0 else 2),
        (safeTextOnlyProcessing tOracle j).2) := by
    intro j
    rcases h with hsize | ⟨hv0, hv1⟩
    · unfold safeVisionGo
      rw [if_pos hsize, if_pos hsize]
    · by_cases hsize : base64Length photo.buffer.length > 1000000
      · unfold safeVisionGo
        rw [if_pos hsize, if_pos hsize]
      · have inner : safeVisionGo vOracle tOracle photo 1 j 1 =
            ((safeTextOnlyProcessing tOracle j).1, 1,
              (safeTextOnlyProcessing tOracle j).2) := by
          unfold safeVisionGo
          rw [if_neg hsize]
          simp only [hv1]
          simp
        unfold safeVisionGo
        rw [if_neg hsize, if_neg hsize]
        simp only [hv0]
        simp only [inner]
        simp
  constructor
  · simp only [orchestrate, processResults, captureToOption,
      safeVisionProcessing]
    rw [key]
  constructor
  · simp only [orchestrate, processResults, captureToOption,
      safeVisionProcessing]
    rw [key]
  · exact hfresh

/-- Witness for the amended C4: small photo, vision failing twice, text
oracle answering "Answer A." then "Answer B.". -/
theorem vision_fallback_fresh_text_call_witness :
    (orchestrate (CaptureOutcome.success smallPhoto) allFailVisionOracle
      twoAnswerTextOracle).1 =
      (safeTextOnlyProcessing twoAnswerTextOracle
        (safeTextOnlyProcessing twoAnswerTextOracle 0).2).1 ∧
    (orchestrate (CaptureOutcome.success smallPhoto) allFailVisionOracle
      twoAnswerTextOracle).2.1 =
      (safeTextOnlyProcessing twoAnswerTextOracle 0).2 +
      (safeTextOnlyProcessing twoAnswerTextOracle
        (safeTextOnlyProcessing twoAnswerTextOracle 0).2).2 ∧
    1 ≤ (safeTextOnlyProcessing twoAnswerTextOracle
      (safeTextOnlyProcessing twoAnswerTextOracle 0).2).2 :=
  vision_fallback_fresh_text_call smallPhoto allFailVisionOracle
    twoAnswerTextOracle (Or.inr ⟨rfl, rfl⟩)

/-! ### Claim C5: TTS cancellation semantics -/

/-- Counterexample to claim C5: the schedule is legal (the abort
listener never wins a race), attempt 1's race settles with a failed
result, and while attempt 2's race is pending the abort signal is
delivered (position 5) but the per-attempt timer settles the race first.
The catch path of the final attempt never re-checks the signal, so the
run shows the visual fallback and returns the failure-path result even
though speak("B") was issued before this run completed — contradicting
"returns at its next await/check point without its visual fallback". -/
theorem tts_cancel_fallback_counterexample :
    RacesWF (some 5) timeoutRaces ∧
    speakWithTTS (some 5) timeoutRaces =
      { result := TTSResult.fallbackShown, speakCallsStarted := 2,
        fallback := true } := by
  constructor
  · intro k h
    revert h
    unfold timeoutRaces
    by_cases hk : k = 0
    · subst hk
      simp
    · simp [hk]
  · decide

theorem speakWithTTSGo_cancelled_on_abort (sig : Option Nat)
    (races : Nat → RaceOutcome) (k fuel : Nat)
    (h : abortSeen sig (4 * k) = true) :
    speakWithTTSGo sig races k (fuel + 1) =
      { result := TTSResult.cancelled, speakCallsStarted := 0,
        fallback := false } := by
  unfold speakWithTTSGo
  rw [if_pos h]

theorem speakWithTTSGo_fallback_iff (sig : Option Nat)
    (races : Nat → RaceOutcome) :
    ∀ fuel k, (speakWithTTSGo sig races k fuel).fallback = true ↔
      (speakWithTTSGo sig races k fuel).result = TTSResult.fallbackShown := by
  intro fuel
  induction fuel with
  | zero =>
      intro k
      simp [speakWithTTSGo]
  | succ n ih =>
      intro k
      unfold speakWithTTSGo
      by_cases htop : abortSeen sig (4 * k) = true
      · rw [if_pos htop]
        simp
      · rw [if_neg htop]
        cases hr : races k with
        | rejCancel =>
            simp only [hr]
            simp
        | resOk =>
            simp only [hr]
            by_cases hpost : abortSeen sig (4 * k + 2) = true
            · rw [if_pos hpost]
              simp
            · rw [if_neg hpost]
              simp
        | resErr =>
            simp only [hr]
            by_cases hpost : abortSeen sig (4 * k + 2) = true
            · rw [if_pos hpost]
              simp
            · rw [if_neg hpost]
              by_cases hn : n = 0
              · subst hn
                simp
              · simp only [hn, if_false]
                exact ih (k + 1)
        | rejTimeout =>
            simp only [hr]
            by_cases hn : n = 0
            · subst hn
              simp
            · simp only [hn, if_false]
              exact ih (k + 1)

theorem speakWithTTSGo_success_signal_late (sig : Option Nat)
    (races : Nat → RaceOutcome) :
    ∀ fuel k, (speakWithTTSGo sig races k fuel).result = TTSResult.success →
      abortSeen sig
        (4 * (k + (speakWithTTSGo sig races k fuel).speakCallsStarted - 1) + 2)
        = false := by
  intro fuel
  induction fuel with
  | zero =>
      intro k h
      simp [speakWithTTSGo] at h
  | succ n ih =>
      intro k h
      revert h
      unfold speakWithTTSGo
      by_cases htop : abortSeen sig (4 * k) = true
      · rw [if_pos htop]
        intro h
        simp at h
      · rw [if_neg htop]
        cases hr : races k with
        | rejCancel =>
            simp only [hr]
            intro h
            simp at h
        | resOk =>
            simp only [hr]
            by_cases hpost : abortSeen sig (4 * k + 2) = true
            · rw [if_pos hpost]
              intro h
              simp at h
            · rw [if_neg hpost]
              intro _
              show abortSeen sig (4 * (k + 1 - 1) + 2) = false
              have hk : 4 * (k + 1 - 1) + 2 = 4 * k + 2 := by omega
              rw [hk]
              cases habort : abortSeen sig (4 * k + 2) with
              | false => rfl
              | true => exact absurd habort hpost
        | resErr =>
            simp only [hr]
            by_cases hpost : abortSeen sig (4 * k + 2) = true
            · rw [if_pos hpost]
              intro h
              simp at h
            · rw [if_neg hpost]
              by_cases hn : n = 0
              · subst hn
                intro h
                simp at h
              · simp only [hn, if_false]
                intro h
                have hres : (speakWithTTSGo sig races (k + 1) n).result =
                    TTSResult.success := h
                have hrec := ih (k + 1) hres
                show abortSeen sig (4 * (k +
                  ((speakWithTTSGo sig races (k + 1) n).speakCallsStarted + 1)
                    - 1) + 2) = false
                have harith : 4 * (k +
                    ((speakWithTTSGo sig races (k + 1) n).speakCallsStarted + 1)
                      - 1) + 2 =
                    4 * ((k + 1) +
                      (speakWithTTSGo sig races (k + 1) n).speakCallsStarted
                        - 1) + 2 := by omega
                rw [harith]
                exact hrec
        | rejTimeout =>
            simp only [hr]
            by_cases hn : n = 0
            · subst hn
              intro h
              simp at h
            · simp only [hn, if_false]
              intro h
              have hres : (speakWithTTSGo sig races (k + 1) n).result =
                  TTSResult.success := h
              have hrec := ih (k + 1) hres
              show abortSeen sig (4 * (k +
                ((speakWithTTSGo sig races (k + 1) n).speakCallsStarted + 1)
                  - 1) + 2) = false
              have harith : 4 * (k +
                  ((speakWithTTSGo sig races (k + 1) n).speakCallsStarted + 1)
                    - 1) + 2 =
                  4 * ((k + 1) +
                    (speakWithTTSGo sig races (k + 1) n).speakCallsStarted
                      - 1) + 2 := by omega
              rw [harith]
              exact hrec

/-- Claim C5 as amended: once the abort signal is observable at a
check point of the retry loop, the loop returns the cancelled outcome
immediately — no speak call is started at or after that point and no
visual fallback is shown — a cancelled return never carries the visual
fallback, and an utterance can audibly complete (return success) only
when the signal had not yet been delivered at its post-race check, so a
speak("B") issued before "A" completes means "A" never audibly
completes.  (The exception established by the counterexample: when the
final attempt's race has already settled against the timer, the catch
path shows the visual fallback without re-checking the signal.) -/
theorem tts_cancellation_amended (sig : Option Nat)
    (races : Nat → RaceOutcome) :
    (∀ k fuel, abortSeen sig (4 * k) = true →
      speakWithTTSGo sig races k (fuel + 1) =
        { result := TTSResult.cancelled, speakCallsStarted := 0,
          fallback := false }) ∧
    ((speakWithTTS sig races).result = TTSResult.cancelled →
      (speakWithTTS sig races).fallback = false) ∧
    ((speakWithTTS sig races).result = TTSResult.success →
      abortSeen sig
        (4 * ((speakWithTTS sig races).speakCallsStarted - 1) + 2) = false) := by
  refine ⟨?_, ?_, ?_⟩
  · intro k fuel h
    exact speakWithTTSGo_cancelled_on_abort sig races k fuel h
  · intro hres
    cases hfb : (speakWithTTS sig races).fallback with
    | false => rfl
    | true =>
        have hshown : (speakWithTTS sig races).result =
            TTSResult.fallbackShown :=
          (speakWithTTSGo_fallback_iff sig races 2 0).mp hfb
        rw [hres] at hshown
        exact absurd hshown (by simp)
  · intro hres
    have hlate := speakWithTTSGo_success_signal_late sig races 2 0 hres
    simpa [speakWithTTS] using hlate

/-- Witness for the amended C5: with the signal delivered before the
run starts, the loop returns cancelled at once — no speak call, no
fallback. -/
theorem tts_cancellation_amended_witness :
    speakWithTTSGo (some 0) (fun _ => RaceOutcome.resOk) 0 (1 + 1) =
      { result := TTSResult.cancelled, speakCallsStarted := 0,
        fallback := false } :=
  (tts_cancellation_amended (some 0) (fun _ => RaceOutcome.resOk)).1 0 1
    (by decide)

/-! ### Claim C1: FIFO, exactly-once, serialized request processing -/

theorem queueInv_start (s : QueueState) (e : List QueuedRequest)
    (h : QueueInv s e) : QueueInv (startQueueLoop s) e := by
  obtain ⟨hb, hp⟩ := h
  unfold startQueueLoop
  by_cases hg : (s.requestQueue.isEmpty || s.isProcessingRequest) = true
  · rw [if_pos hg]
    exact ⟨hb, hp⟩
  · rw [if_neg hg]
    have hsplit : s.requestQueue.isEmpty = false ∧
        s.isProcessingRequest = false := by
      revert hg
      cases s.requestQueue.isEmpty <;> cases s.isProcessingRequest <;> simp
    have hcur : s.currentRequest = none := by
      cases hc : s.currentRequest with
      | none => rfl
      | some r =>
          rw [hsplit.2, hc] at hb
          simp at hb
    cases hq : s.requestQueue with
    | nil =>
        rw [hq] at hsplit
        simp at hsplit
    | cons r rest =>
        constructor
        · simp [hq]
        · rw [hp, hcur, hq]
          simp [hq]

theorem queueInv_enqueue (s : QueueState) (e : List QueuedRequest)
    (r : QueuedRequest) (h : QueueInv s e) :
    QueueInv (processRequest r s) (e ++ [r]) := by
  obtain ⟨hb, hp⟩ := h
  have h1 : QueueInv { s with requestQueue := s.requestQueue ++ [r] }
      (e ++ [r]) := by
    refine ⟨hb, ?_⟩
    rw [hp]
    simp
  unfold processRequest
  by_cases hbusy : s.isProcessingRequest = true
  · rw [if_pos hbusy]
    exact h1
  · rw [if_neg hbusy]
    exact queueInv_start _ _ h1

theorem queueInv_finish (s : QueueState) (e : List QueuedRequest)
    (h : QueueInv s e) : QueueInv (finishCurrent s) e := by
  obtain ⟨hb, hp⟩ := h
  unfold finishCurrent
  cases hc : s.currentRequest with
  | none =>
      simp only [hc]
      exact ⟨hb, hp⟩
  | some r =>
      simp only [hc]
      rw [hc] at hp
      by_cases hq : s.requestQueue.length > 0
      · rw [if_pos hq]
        refine ⟨rfl, ?_⟩
        rw [hp]
        simp
      · rw [if_neg hq]
        refine ⟨rfl, ?_⟩
        rw [hp]
        simp

theorem queueInv_wakeup (s : QueueState) (e : List QueuedRequest)
    (h : QueueInv s e) : QueueInv (runWakeup s) e := by
  obtain ⟨hb, hp⟩ := h
  unfold runWakeup
  by_cases hpend : s.pendingWakeups > 0
  · rw [if_pos hpend]
    exact queueInv_start _ _ ⟨hb, hp⟩
  · rw [if_neg hpend]
    exact ⟨hb, hp⟩

theorem queueInv_step (s : QueueState) (e : List QueuedRequest)
    (a : QueueAction) (h : QueueInv s e) :
    QueueInv (queueStep s a) (e ++ enqueuedOf [a]) := by
  cases a with
  | enqueue r => exact queueInv_enqueue s e r h
  | finish =>
      have : enqueuedOf [QueueAction.finish] = [] := rfl
      rw [this, List.append_nil]
      exact queueInv_finish s e h
  | wakeup =>
      have : enqueuedOf [QueueAction.wakeup] = [] := rfl
      rw [this, List.append_nil]
      exact queueInv_wakeup s e h

theorem queueRun_inv (acts : List QueueAction) :
    QueueInv (queueRun acts) (enqueuedOf acts) := by
  suffices h : ∀ rest s e, QueueInv s e →
      QueueInv (rest.foldl queueStep s) (e ++ enqueuedOf rest) by
    have h0 : QueueInv initQueueState [] := ⟨rfl, rfl⟩
    have := h acts initQueueState [] h0
    simpa [queueRun] using this
  intro rest
  induction rest with
  | nil =>
      intro s e h
      simpa [enqueuedOf] using h
  | cons a rest ih =>
      intro s e h
      have hstep := queueInv_step s e a h
      have := ih (queueStep s a) (e ++ enqueuedOf [a]) hstep
      rw [List.foldl_cons]
      have hcat : enqueuedOf (a :: rest) = enqueuedOf [a] ++ enqueuedOf rest := by
        cases a <;> simp [enqueuedOf]
      rw [hcat, ← List.append_assoc]
      exact this

/-- Claim C1: along every interleaving of enqueues, completions and
setImmediate wake-ups, the busy flag is set exactly while a request is
dequeued-but-unfinished (so at most one request is ever in flight, and a
new one is dequeued only after the previous one's finally block ran),
the requests enqueued so far are exactly — once each, in FIFO order —
the completed ones, then the in-flight one, then the queued ones; when
the scheduler is idle with an empty queue it has processed all N
enqueued requests, in order.  While a request is in flight, no action
other than its completion changes the in-flight request: enqueue (which
never blocks: it is a total function on states) only appends, and a
wake-up's guard returns immediately. -/
theorem queue_fifo_serialized (acts : List QueueAction) :
    (queueRun acts).isProcessingRequest =
      (queueRun acts).currentRequest.isSome ∧
    enqueuedOf acts =
      (queueRun acts).completed ++ (queueRun acts).currentRequest.toList ++
        (queueRun acts).requestQueue ∧
    ((queueRun acts).currentRequest = none →
      (queueRun acts).requestQueue = [] →
      (queueRun acts).completed = enqueuedOf acts) ∧
    (∀ rq a, (queueRun acts).currentRequest = some rq →
      a ≠ QueueAction.finish →
      (queueStep (queueRun acts) a).currentRequest = some rq) := by
  obtain ⟨hb, hp⟩ := queueRun_inv acts
  refine ⟨hb, hp, ?_, ?_⟩
  · intro hcur hq
    rw [hp, hcur, hq]
    simp
  · intro rq a hcur hne
    have hbusy : (queueRun acts).isProcessingRequest = true := by
      rw [hb, hcur]
      rfl
    cases a with
    | enqueue r =>
        show (processRequest r (queueRun acts)).currentRequest = some rq
        unfold processRequest
        rw [if_pos hbusy]
        exact hcur
    | finish => exact absurd rfl hne
    | wakeup =>
        show (runWakeup (queueRun acts)).currentRequest = some rq
        unfold runWakeup
        by_cases hpend : (queueRun acts).pendingWakeups > 0
        · rw [if_pos hpend]
          unfold startQueueLoop
          rw [if_pos (by simp [hbusy])]
          exact hcur
        · rw [if_neg hpend]
          exact hcur

/-- Witness for C1: on the demo trace (two enqueues, completion,
wake-up, completion) the scheduler ends idle, with an empty queue,
having completed exactly the two requests in enqueue order. -/
theorem queue_fifo_serialized_witness :
    (queueRun demoTrace).completed = enqueuedOf demoTrace :=
  (queue_fifo_serialized demoTrace).2.2.1 (by decide) (by decide)

end Glasses
